import Mathlib

/-!
Shallow embedding of the livehttpx probing core (`src/core/checker.py`,
`src/core/models.py`) and proofs about it.

Modelling conventions:
* Network I/O is abstracted by an oracle `net : Scheme → Nat → Bool → NetResult`
  giving the outcome of the GET request issued for a given scheme, attempt
  index, and TLS-verification flag (the SSL fallback re-request of an attempt
  is the `verify = false` entry for the same scheme/attempt).
* The external classification collaborators of `src/core/utils.py`
  (`extract_title`, `detect_technologies`, ...) are black-box function
  parameters, exactly as the spec treats them.
* `check_host` returns the list of observable effects (rate-limiter gate
  invocations, probe requests, backoff sleeps) next to its result, so claims
  about control flow become claims about the event trace.
* Wall-clock floats (`response_time`, `start_time`, `end_time`) are not
  modelled; a backoff sleep of `0.5 * (attempt+1)` seconds is recorded as the
  event `Event.sleep (attempt+1)` (the number of half-seconds slept).
-/

/-- HTTP scheme of one probe attempt (`"http://"` / `"https://"` in the
Python source). -/
inductive Scheme where
  | http
  | https
deriving DecidableEq, Repr

/-- The `scheme + host` URL prefix, as the Python strings. -/
def Scheme.str : Scheme → String
  | .http => "http://"
  | .https => "https://"

/-- `scheme.replace('://', '')` from `checker.py` line 150. -/
def Scheme.short : Scheme → String
  | .http => "http"
  | .https => "https"

/-- The data of a successful HTTP response that `check_host` consumes:
status code, body text, final URL after redirects, content length, and the
response header and cookie lists. -/
structure HttpResponse where
  status_code : Nat
  text : String := ""
  final_url : String := ""
  content_len : Nat := 0
  header_list : List (String × String) := []
  cookie_list : List (String × String) := []
deriving DecidableEq, Repr

/-- Outcome of one `session.get` call: a response, or one of the exception
classes distinguished by the handlers in `check_host`
(`requests.exceptions.SSLError`, `Timeout`, `ConnectionError`,
`RequestException`, any other `Exception`). -/
inductive NetResult where
  | resp (r : HttpResponse)
  | sslErr
  | timeoutErr
  | connErr
  | reqErr
  | otherErr
deriving DecidableEq, Repr

/-- `ScanConfig` from `src/core/models.py` (the fields `check_host` and
`run_checks` read; display-only toggles such as `show_title` are omitted,
and wall-clock `timeout` seconds are kept as an uninterpreted number). -/
structure ScanConfig where
  timeout : Nat := 5
  max_workers : Nat := 50
  match_codes : List Nat := [200, 201, 202, 204, 301, 302, 307, 308, 401, 403]
  verify_ssl : Bool := true
  rate_limit : Option Nat := none
  retries : Nat := 1
  follow_redirects : Bool := true
  tech_detection : Bool := false
  detect_waf : Bool := false
  detect_cms : Bool := false
  detect_cdn : Bool := false
  extract_headers : Bool := false
  extract_cookies : Bool := false
  find_forms : Bool := false
  find_logins : Bool := false
  random_user_agent : Bool := true
  custom_user_agent : Option String := none
  custom_headers : List (String × String) := []
  proxy : Option String := none
  exclude_codes : List Nat := []
  include_codes : List Nat := []
  only_https : Bool := false
  only_http : Bool := false
deriving DecidableEq, Repr

/-- `ScanResult` from `src/core/models.py` (float `response_time` not
modelled). -/
structure ScanResult where
  url : String
  host : String
  status : Nat
  scheme : String
  title : String := ""
  content_length : Nat := 0
  server : String := ""
  ip_address : String := ""
  technologies : List String := []
  redirect_chain : List String := []
  headers : List (String × String) := []
  cookies : List (String × String) := []
  has_form : Bool := false
  has_login : Bool := false
  is_wordpress : Bool := false
  cms : String := ""
  waf : String := ""
  cdn : String := ""
deriving DecidableEq, Repr

/-- `SubdomainChecker._should_include_status` (`checker.py` lines 75-86),
including the Python truthiness guards on the two lists. -/
def should_include_status (config : ScanConfig) (status : Nat) : Bool :=
  if !config.exclude_codes.isEmpty && config.exclude_codes.contains status then
    false
  else if !config.include_codes.isEmpty && !config.include_codes.contains status then
    false
  else
    config.match_codes.contains status

/-- The status filter as the specification words it (spec §4.2): excluded if
`status ∈ excludeCodes`; else excluded if `includeCodes` is non-empty and
`status ∉ includeCodes`; else included iff `status ∈ matchCodes`. -/
def spec_shouldInclude (config : ScanConfig) (status : Nat) : Bool :=
  if config.exclude_codes.contains status then false
  else if !config.include_codes.isEmpty && !config.include_codes.contains status then
    false
  else config.match_codes.contains status

/-- The external classification collaborators (`src/core/utils.py`), treated
as black-box pure functions exactly as spec §1 prescribes
(`classify(html, headers)` and `extractTitle(html)`). -/
structure Classifiers where
  extract_title : String → String
  detect_technologies : String → List (String × String) → List String
  detect_cms : String → List (String × String) → String
  detect_waf : List (String × String) → String
  detect_cdn : List (String × String) → String
  detect_forms : String → Bool
  detect_login_forms : String → Bool
  get_ip_address : String → Option String

/-- One scan environment: the network oracle (scheme, attempt index,
TLS-verification flag ↦ outcome of the GET) plus the classifier
collaborators. -/
structure Env where
  net : Scheme → Nat → Bool → NetResult
  cls : Classifiers

/-- Observable effects of `check_host`, in order:
* `rateLimitWait` — an invocation of `_rate_limit_wait` (the rate-limiter
  gate);
* `probe s a v` — a `session.get` for scheme `s`, attempt `a`, with
  `verify = v`;
* `sleep n` — `time.sleep(0.5 * n)`, the backoff sleep of `n` half-seconds. -/
inductive Event where
  | rateLimitWait
  | probe (s : Scheme) (attempt : Nat) (verify : Bool)
  | sleep (halfSeconds : Nat)
deriving DecidableEq, Repr

/-- Case-insensitive header lookup with default `""`, modelling
`response.headers.get('Server', '')` on the case-insensitive header map of
the HTTP client. -/
def headerGet (hs : List (String × String)) (key : String) : String :=
  match hs.find? (fun p => p.1.toLower == key.toLower) with
  | some p => p.2
  | none => ""

/-- `SubdomainChecker._extract_headers` (`checker.py` lines 88-97): keep only
the listed fingerprint headers, and only when the toggle is on. -/
def extract_headers_of (config : ScanConfig) (r : HttpResponse) :
    List (String × String) :=
  if !config.extract_headers then []
  else r.header_list.filter (fun p =>
    ["server", "x-powered-by", "x-cdn", "cf-ray", "x-sucuri-id"].contains
      p.1.toLower)

/-- `SubdomainChecker._extract_cookies` (`checker.py` lines 99-107). -/
def extract_cookies_of (config : ScanConfig) (r : HttpResponse) :
    List (String × String) :=
  if !config.extract_cookies then [] else r.cookie_list

/-- The `ScanResult` built on the success path of `check_host`
(`checker.py` lines 140-187): base fields plus the enrichment fields gated
by the config toggles. -/
def buildResult (env : Env) (config : ScanConfig) (host : String)
    (scheme : Scheme) (r : HttpResponse) : ScanResult :=
  let url := scheme.str ++ host
  { url := if config.follow_redirects then r.final_url else url
    host := host
    status := r.status_code
    scheme := scheme.short
    title := env.cls.extract_title r.text
    content_length := r.content_len
    server := headerGet r.header_list "Server"
    ip_address := (env.cls.get_ip_address host).getD ""
    headers := extract_headers_of config r
    cookies := extract_cookies_of config r
    technologies :=
      if config.tech_detection then
        env.cls.detect_technologies r.text r.header_list
      else []
    cms := if config.detect_cms then env.cls.detect_cms r.text r.header_list else ""
    waf := if config.detect_waf then env.cls.detect_waf r.header_list else ""
    cdn := if config.detect_cdn then env.cls.detect_cdn r.header_list else ""
    has_form := if config.find_forms then env.cls.detect_forms r.text else false
    has_login := if config.find_logins then env.cls.detect_login_forms r.text else false }

/-- The reduced-detail `ScanResult` built on the SSL-fallback path
(`checker.py` lines 202-210): only url, host, status, scheme `'https'`,
title, content length and server are filled in. -/
def buildFallbackResult (env : Env) (config : ScanConfig) (host : String)
    (r : HttpResponse) : ScanResult :=
  let url := Scheme.https.str ++ host
  { url := if config.follow_redirects then r.final_url else url
    host := host
    status := r.status_code
    scheme := "https"
    title := env.cls.extract_title r.text
    content_length := r.content_len
    server := headerGet r.header_list "Server" }

/-- The inner `for attempt in range(self.config.retries + 1)` loop of
`check_host` (`checker.py` lines 121-222) for one scheme, started at attempt
index `attempt` with `remaining` loop iterations left, returning the emitted
events and the result of an early `return`, if any.

Faithful control flow: a non-matching response, an `SSLError` (after the one
fallback request when `verify_ssl` and the scheme is https), a
`ConnectionError`/`RequestException`, and any other exception all fall
through to the next iteration of this attempt loop; a `Timeout` sleeps
`0.5 * (attempt+1)` seconds first when `attempt < retries`. -/
def attemptsLoop (env : Env) (config : ScanConfig) (host : String)
    (scheme : Scheme) : Nat → Nat → List Event × Option ScanResult
  | _, 0 => ([], none)
  | attempt, remaining + 1 =>
    let ev := Event.probe scheme attempt config.verify_ssl
    let next := fun (pre : List Event) =>
      let t := attemptsLoop env config host scheme (attempt + 1) remaining
      (pre ++ t.1, t.2)
    match env.net scheme attempt config.verify_ssl with
    | .resp r =>
      if should_include_status config r.status_code then
        ([ev], some (buildResult env config host scheme r))
      else next [ev]
    | .sslErr =>
      if config.verify_ssl && scheme == Scheme.https then
        let ev2 := Event.probe scheme attempt false
        match env.net scheme attempt false with
        | .resp r =>
          if should_include_status config r.status_code then
            ([ev, ev2], some (buildFallbackResult env config host r))
          else next [ev, ev2]
        | _ => next [ev, ev2]
      else next [ev]
    | .timeoutErr =>
      if attempt < config.retries then
        next [ev, Event.sleep (attempt + 1)]
      else next [ev]
    | .connErr => next [ev]
    | .reqErr => next [ev]
    | .otherErr => next [ev]

/-- The scheme list built at `checker.py` lines 114-118: `http` unless
`only_https`, then `https` unless `only_http`. -/
def schemesFor (config : ScanConfig) : List Scheme :=
  (if !config.only_https then [Scheme.http] else []) ++
  (if !config.only_http then [Scheme.https] else [])

/-- The outer `for scheme in schemes` loop of `check_host`. -/
def schemesLoop (env : Env) (config : ScanConfig) (host : String) :
    List Scheme → List Event × Option ScanResult
  | [] => ([], none)
  | s :: rest =>
    let t := attemptsLoop env config host s 0 (config.retries + 1)
    match t.2 with
    | some r => (t.1, some r)
    | none =>
      let t2 := schemesLoop env config host rest
      (t.1 ++ t2.1, t2.2)

/-- `SubdomainChecker.check_host` (`checker.py` lines 109-224): one
rate-limiter gate invocation, then the scheme/attempt loops; returns the
event trace and `some result` for an early `return result`, `none` for the
final `return None`. -/
def check_host (env : Env) (config : ScanConfig) (host : String) :
    List Event × Option ScanResult :=
  let t := schemesLoop env config host (schemesFor config)
  (Event.rateLimitWait :: t.1, t.2)

/-- Python string `<` (strict lexicographic comparison by Unicode code
point), on the character lists of the two strings. -/
def lexLt : List Char → List Char → Bool
  | [], [] => false
  | [], _ :: _ => true
  | _ :: _, [] => false
  | a :: as, b :: bs =>
    if a.toNat < b.toNat then true
    else if b.toNat < a.toNat then false
    else lexLt as bs

/-- Python tuple `<` on the sort key `(x.status, x.url)` used at
`checker.py` line 277. -/
def keyLt (a b : ScanResult) : Bool :=
  a.status < b.status || (a.status == b.status && lexLt a.url.data b.url.data)

/-- The `le` relation realised by Python's ascending stable sort with that
key: `a` may stay left of `b` iff the key of `b` is not strictly smaller. -/
def keyLe (a b : ScanResult) : Bool := !keyLt b a

/-- Insert `a` into an already-sorted list, before the first element whose
key is not strictly smaller (so before any equal-key element, as a stable
sort requires). -/
def insertSorted (a : ScanResult) : List ScanResult → List ScanResult
  | [] => [a]
  | b :: bs => if keyLe a b then a :: b :: bs else b :: insertSorted a bs

/-- `self.results.sort(key=lambda x: (x.status, x.url))` (`checker.py`
line 277): Python's `list.sort` is the stable ascending sort by the key,
modelled here as the canonical stable insertion sort for `keyLe`. -/
def sortResults : List ScanResult → List ScanResult
  | [] => []
  | a :: as => insertSorted a (sortResults as)

/-- `dict.get(k, 0) + 1` update on a distribution map, modelled as an
association list: bump the entry of `k`, appending `(k, 1)` when absent. -/
def distIncr {α : Type} [BEq α] : List (α × Nat) → α → List (α × Nat)
  | [], k => [(k, 1)]
  | (k', v) :: rest, k =>
    if k' == k then (k', v + 1) :: rest else (k', v) :: distIncr rest k

/-- Total count held by a distribution map. -/
def distTotal {α : Type} (d : List (α × Nat)) : Nat :=
  (d.map Prod.snd).sum

/-- `ScanStats` from `src/core/models.py` (wall-clock times not modelled;
distribution dicts as association lists). -/
structure ScanStats where
  total_checked : Nat := 0
  total_found : Nat := 0
  status_distribution : List (Nat × Nat) := []
  tech_distribution : List (String × Nat) := []
  cms_distribution : List (String × Nat) := []
  waf_distribution : List (String × Nat) := []
deriving DecidableEq, Repr

/-- The aggregation state of a `SubdomainChecker`: its `results` list and
`stats`, as initialised in `__init__`. -/
structure AggState where
  results : List ScanResult := []
  stats : ScanStats := {}
deriving DecidableEq, Repr

/-- The per-completed-future body of the `run_checks` collection loop
(`checker.py` lines 242-266): on a non-nil result, append it, bump
`total_found`, and bump the status/tech/cms/waf distributions. -/
def record (st : AggState) (res : Option ScanResult) : AggState :=
  match res with
  | none => st
  | some r =>
    { results := st.results ++ [r]
      stats :=
        { st.stats with
          total_found := st.stats.total_found + 1
          status_distribution := distIncr st.stats.status_distribution r.status
          tech_distribution :=
            r.technologies.foldl distIncr st.stats.tech_distribution
          cms_distribution :=
            if r.cms ≠ "" then distIncr st.stats.cms_distribution r.cms
            else st.stats.cms_distribution
          waf_distribution :=
            if r.waf ≠ "" then distIncr st.stats.waf_distribution r.waf
            else st.stats.waf_distribution } }

/-- `SubdomainChecker.run_checks` (`checker.py` lines 226-281), given the
per-host outcomes in the order the futures completed: record each outcome,
then sort the result list by `(status, url)`. Returns the final sorted
result list and the stats. -/
def run_checks (totalHosts : Nat) (completed : List (Option ScanResult)) :
    List ScanResult × ScanStats :=
  let st := completed.foldl record { stats := { total_checked := totalHosts } }
  let sorted := sortResults st.results
  (sorted, st.stats)

/-- Trivial classifier collaborators for concrete scenarios. -/
def cls0 : Classifiers :=
  { extract_title := fun _ => ""
    detect_technologies := fun _ _ => []
    detect_cms := fun _ _ => ""
    detect_waf := fun _ => ""
    detect_cdn := fun _ => ""
    detect_forms := fun _ => false
    detect_login_forms := fun _ => false
    get_ip_address := fun _ => none }

/-- A network where every request raises `ConnectionError`. -/
def envHard : Env := { net := fun _ _ _ => .connErr, cls := cls0 }

lemma contains_isEmpty_false {l : List Nat} {a : Nat}
    (h : l.contains a = true) : l.isEmpty = false := by
  cases l with
  | nil => simp at h
  | cons b bs => rfl

lemma attemptsLoop_no_wait (env : Env) (config : ScanConfig) (host : String)
    (s : Scheme) :
    ∀ rem a, Event.rateLimitWait ∉ (attemptsLoop env config host s a rem).1 := by
  intro rem
  induction rem with
  | zero => intro a; simp [attemptsLoop]
  | succ n ih =>
    intro a
    simp only [attemptsLoop]
    cases hn : env.net s a config.verify_ssl with
    | resp r =>
      by_cases hi : should_include_status config r.status_code
      · simp [hn, hi]
      · simp [hn, hi]; exact ih (a + 1)
    | sslErr =>
      by_cases hv : config.verify_ssl && s == Scheme.https
      · cases hf : env.net s a false with
        | resp r =>
          by_cases hi : should_include_status config r.status_code
          · simp [hn, hv, hf, hi]
          · simp [hn, hv, hf, hi]; exact ih (a + 1)
        | sslErr => simp [hn, hv, hf]; exact ih (a + 1)
        | timeoutErr => simp [hn, hv, hf]; exact ih (a + 1)
        | connErr => simp [hn, hv, hf]; exact ih (a + 1)
        | reqErr => simp [hn, hv, hf]; exact ih (a + 1)
        | otherErr => simp [hn, hv, hf]; exact ih (a + 1)
      · simp [hn, hv]; exact ih (a + 1)
    | timeoutErr =>
      by_cases hr : a < config.retries
      · simp [hn, hr]; exact ih (a + 1)
      · simp [hn, hr]; exact ih (a + 1)
    | connErr => simp [hn]; exact ih (a + 1)
    | reqErr => simp [hn]; exact ih (a + 1)
    | otherErr => simp [hn]; exact ih (a + 1)

lemma schemesLoop_no_wait (env : Env) (config : ScanConfig) (host : String) :
    ∀ ss : List Scheme, Event.rateLimitWait ∉ (schemesLoop env config host ss).1 := by
  intro ss
  induction ss with
  | nil => simp [schemesLoop]
  | cons s rest ih =>
    simp only [schemesLoop]
    cases ht : (attemptsLoop env config host s 0 (config.retries + 1)).2 with
    | some r =>
      simp [ht]
      have := attemptsLoop_no_wait env config host s (config.retries + 1) 0
      simpa using this
    | none =>
      simp [ht, List.mem_append]
      constructor
      · have := attemptsLoop_no_wait env config host s (config.retries + 1) 0
        simpa using this
      · simpa using ih

/-- C1: the status filter equals the spec's exclude-then-include-then-match
policy, and in particular every status in `excludeCodes` is rejected even
when it is also in `matchCodes` (exclude is checked first). -/
theorem status_filter_matches_spec :
    (∀ (config : ScanConfig) (status : Nat),
      should_include_status config status = spec_shouldInclude config status) ∧
    (∀ (config : ScanConfig) (status : Nat),
      config.exclude_codes.contains status = true →
      should_include_status config status = false) := by
  constructor
  · intro config status
    unfold should_include_status spec_shouldInclude
    cases h : config.exclude_codes.contains status
    · simp [h]
    · simp [h, contains_isEmpty_false h]
  · intro config status h
    unfold should_include_status
    rw [contains_isEmpty_false h, h]
    rfl

/-- Witness for C1 at a concrete config: status 404 is in both
`excludeCodes` and `matchCodes`, and the filter rejects it. -/
theorem status_filter_matches_spec_witness :
    should_include_status
      { match_codes := [200, 404], exclude_codes := [404] } 404 = false :=
  status_filter_matches_spec.2
    { match_codes := [200, 404], exclude_codes := [404] } 404 (by decide)

/-- C6: when both `only_https` and `only_http` are set, `check_host` builds
an empty scheme list, issues no probe at all, and returns `none` (the model
is a total function, so no exception is raised). -/
theorem both_scheme_flags_yield_nil (env : Env) (config : ScanConfig)
    (host : String) (h1 : config.only_https = true)
    (h2 : config.only_http = true) :
    check_host env config host = ([Event.rateLimitWait], none) := by
  unfold check_host schemesFor
  simp [h1, h2, schemesLoop]

/-- Witness for C6 at a concrete environment and config. -/
theorem both_scheme_flags_yield_nil_witness :
    check_host envHard { only_https := true, only_http := true } "h" =
      ([Event.rateLimitWait], none) :=
  both_scheme_flags_yield_nil envHard
    { only_https := true, only_http := true } "h" rfl rfl

/-- C2 (amended): the rate-limiter gate is invoked exactly once per
`check_host` call — as the first event, before the scheme/attempt loops —
not once per probe attempt. -/
theorem rate_limiter_gate_once_per_host (env : Env) (config : ScanConfig)
    (host : String) :
    (check_host env config host).1.head? = some Event.rateLimitWait ∧
    (check_host env config host).1.count Event.rateLimitWait = 1 := by
  constructor
  · rfl
  · show (Event.rateLimitWait :: (schemesLoop env config host (schemesFor config)).1).count
        Event.rateLimitWait = 1
    rw [List.count_cons_self,
      List.count_eq_zero.mpr (schemesLoop_no_wait env config host (schemesFor config))]

/-- Counterexample to C2 as stated: with a configured rate limit, two
probe attempts are made (one per scheme, `retries = 0`) but the gate is
invoked only once, not once per (scheme, attempt) pair. -/
theorem rate_limiter_gate_counterexample :
    ({ retries := 0, rate_limit := some 2 } : ScanConfig).rate_limit = some 2 ∧
    check_host envHard { retries := 0, rate_limit := some 2 } "h" =
      ([Event.rateLimitWait, Event.probe Scheme.http 0 true,
        Event.probe Scheme.https 0 true], none) ∧
    [Event.rateLimitWait, Event.probe Scheme.http 0 true,
      Event.probe Scheme.https 0 true].count Event.rateLimitWait = 1 :=
  ⟨rfl, rfl, by decide⟩

/-- The exception classes handled by the bottom two `except` clauses of
`check_host`: `ConnectionError`, `RequestException`, and any other
exception. -/
def isHardErr : NetResult → Bool
  | .connErr => true
  | .reqErr => true
  | .otherErr => true
  | _ => false

lemma attemptsLoop_hard_step (env : Env) (config : ScanConfig) (host : String)
    (s : Scheme) (a rem : Nat)
    (h : isHardErr (env.net s a config.verify_ssl) = true) :
    attemptsLoop env config host s a (rem + 1) =
      (Event.probe s a config.verify_ssl ::
        (attemptsLoop env config host s (a + 1) rem).1,
       (attemptsLoop env config host s (a + 1) rem).2) := by
  simp only [attemptsLoop]
  cases hn : env.net s a config.verify_ssl <;>
    simp [hn, isHardErr] at h ⊢

lemma attemptsLoop_hard_all (env : Env) (config : ScanConfig) (host : String)
    (s : Scheme) :
    ∀ rem a, (∀ i, isHardErr (env.net s i config.verify_ssl) = true) →
      attemptsLoop env config host s a rem =
        ((List.range' a rem).map (fun i => Event.probe s i config.verify_ssl),
         none) := by
  intro rem
  induction rem with
  | zero => intro a _; simp [attemptsLoop]
  | succ n ih =>
    intro a hall
    rw [attemptsLoop_hard_step env config host s a n (hall a), ih (a + 1) hall]
    simp [List.range']

lemma schemesLoop_single (env : Env) (config : ScanConfig) (host : String)
    (s : Scheme) :
    schemesLoop env config host [s] =
      ((attemptsLoop env config host s 0 (config.retries + 1)).1,
       (attemptsLoop env config host s 0 (config.retries + 1)).2) := by
  simp only [schemesLoop]
  cases ht : (attemptsLoop env config host s 0 (config.retries + 1)).2 <;>
    simp [ht]

/-- C3 (amended): a `ConnectionError` or generic error abandons only the
current attempt, with no backoff sleep — the next probe is attempt
`attempt + 1` of the *same* scheme; a scheme is given up (moving to the
next scheme) only after all `retries + 1` attempts have failed. -/
theorem hard_error_same_scheme_no_backoff :
    (∀ (env : Env) (config : ScanConfig) (host : String) (s : Scheme)
      (a rem : Nat), isHardErr (env.net s a config.verify_ssl) = true →
      attemptsLoop env config host s a (rem + 1) =
        (Event.probe s a config.verify_ssl ::
          (attemptsLoop env config host s (a + 1) rem).1,
         (attemptsLoop env config host s (a + 1) rem).2)) ∧
    (∀ (env : Env) (config : ScanConfig) (host : String),
      config.only_https = false → config.only_http = false →
      (∀ i, isHardErr (env.net Scheme.http i config.verify_ssl) = true) →
      check_host env config host =
        (Event.rateLimitWait ::
          ((List.range' 0 (config.retries + 1)).map
            (fun i => Event.probe Scheme.http i config.verify_ssl) ++
           (attemptsLoop env config host Scheme.https 0 (config.retries + 1)).1),
         (attemptsLoop env config host Scheme.https 0 (config.retries + 1)).2)) := by
  constructor
  · exact attemptsLoop_hard_step
  · intro env config host h1 h2 hall
    unfold check_host schemesFor
    rw [h1, h2]
    simp only [Bool.not_false, if_true, List.singleton_append, schemesLoop,
      attemptsLoop_hard_all env config host Scheme.http (config.retries + 1) 0 hall,
      schemesLoop_single]
    cases ht : (attemptsLoop env config host Scheme.https 0 (config.retries + 1)).2 <;>
      simp [ht]

/-- Witness for C3's amended theorem at a concrete scenario. -/
theorem hard_error_same_scheme_no_backoff_witness :
    attemptsLoop envHard { retries := 1 } "h" Scheme.http 0 (1 + 1) =
      (Event.probe Scheme.http 0 true ::
        (attemptsLoop envHard { retries := 1 } "h" Scheme.http (0 + 1) 1).1,
       (attemptsLoop envHard { retries := 1 } "h" Scheme.http (0 + 1) 1).2) :=
  hard_error_same_scheme_no_backoff.1 envHard { retries := 1 } "h"
    Scheme.http 0 1 (by decide)

/-- A network where `http` attempt 0 raises `ConnectionError` and every
other request returns status 200. -/
def envConnThenOk : Env :=
  { net := fun s a _ =>
      match s, a with
      | Scheme.http, 0 => .connErr
      | _, _ => .resp { status_code := 200 }
    cls := cls0 }

/-- Counterexample to C3 as stated: after the `ConnectionError` on
(`http`, attempt 0) with `retries = 1`, `check_host` does *not* move to the
`https` scheme — the very next probe is (`http`, attempt 1), and the
returned result's scheme is `"http"`. -/
theorem conn_error_next_scheme_counterexample :
    envConnThenOk.net Scheme.http 0 true = NetResult.connErr ∧
    (check_host envConnThenOk { retries := 1 } "h").1 =
      [Event.rateLimitWait, Event.probe Scheme.http 0 true,
        Event.probe Scheme.http 1 true] ∧
    ((check_host envConnThenOk { retries := 1 } "h").2).map ScanResult.scheme =
      some "http" :=
  ⟨rfl, rfl, rfl⟩

/-- The trace of `k` consecutive timed-out attempts starting at attempt `a`:
each contributes its probe and the linear-backoff sleep of
`0.5 * (attempt + 1)` seconds. -/
def timeoutBackoffTrace (s : Scheme) (v : Bool) : Nat → Nat → List Event
  | _, 0 => []
  | a, k + 1 =>
    Event.probe s a v :: Event.sleep (a + 1) :: timeoutBackoffTrace s v (a + 1) k

lemma attemptsLoop_first_match (env : Env) (config : ScanConfig)
    (host : String) (s : Scheme) (a rem : Nat) (r : HttpResponse)
    (hn : env.net s a config.verify_ssl = .resp r)
    (hi : should_include_status config r.status_code = true) :
    attemptsLoop env config host s a (rem + 1) =
      ([Event.probe s a config.verify_ssl],
       some (buildResult env config host s r)) := by
  simp only [attemptsLoop, hn, hi]
  simp

lemma attemptsLoop_timeout_step (env : Env) (config : ScanConfig)
    (host : String) (s : Scheme) (a rem : Nat)
    (hn : env.net s a config.verify_ssl = .timeoutErr)
    (ha : a < config.retries) :
    attemptsLoop env config host s a (rem + 1) =
      (Event.probe s a config.verify_ssl :: Event.sleep (a + 1) ::
        (attemptsLoop env config host s (a + 1) rem).1,
       (attemptsLoop env config host s (a + 1) rem).2) := by
  simp only [attemptsLoop, hn, ha, if_true]
  simp

lemma attemptsLoop_timeout_last (env : Env) (config : ScanConfig)
    (host : String) (s : Scheme) (a rem : Nat)
    (hn : env.net s a config.verify_ssl = .timeoutErr)
    (ha : ¬ a < config.retries) :
    attemptsLoop env config host s a (rem + 1) =
      (Event.probe s a config.verify_ssl ::
        (attemptsLoop env config host s (a + 1) rem).1,
       (attemptsLoop env config host s (a + 1) rem).2) := by
  simp only [attemptsLoop, hn, ha, if_false]
  simp

lemma attemptsLoop_timeouts_then_match (env : Env) (config : ScanConfig)
    (host : String) (s : Scheme) (r : HttpResponse) :
    ∀ k a rem, a + rem = config.retries + 1 → k < rem →
      (∀ i, i < k → env.net s (a + i) config.verify_ssl = .timeoutErr) →
      env.net s (a + k) config.verify_ssl = .resp r →
      should_include_status config r.status_code = true →
      attemptsLoop env config host s a rem =
        (timeoutBackoffTrace s config.verify_ssl a k ++
          [Event.probe s (a + k) config.verify_ssl],
         some (buildResult env config host s r)) := by
  intro k
  induction k with
  | zero =>
    intro a rem hsum hlt htos hm hi
    obtain ⟨rem', rfl⟩ : ∃ rem', rem = rem' + 1 := ⟨rem - 1, by omega⟩
    rw [attemptsLoop_first_match env config host s a rem' r hm hi]
    simp [timeoutBackoffTrace]
  | succ k ih =>
    intro a rem hsum hlt htos hm hi
    obtain ⟨rem', rfl⟩ : ∃ rem', rem = rem' + 1 := ⟨rem - 1, by omega⟩
    have h0 : env.net s a config.verify_ssl = .timeoutErr := by
      have := htos 0 (by omega); simpa using this
    rw [attemptsLoop_timeout_step env config host s a rem' h0 (by omega)]
    have ihres := ih (a + 1) rem' (by omega) (by omega)
      (fun i hik => by
        rw [show a + 1 + i = a + (i + 1) from by omega]
        exact htos (i + 1) (by omega))
      (by
        rw [show a + 1 + k = a + (k + 1) from by omega]
        exact hm)
      hi
    rw [ihres]
    have harith : a + 1 + k = a + (k + 1) := by omega
    simp [timeoutBackoffTrace, harith]

lemma attemptsLoop_timeout_all (env : Env) (config : ScanConfig)
    (host : String) (s : Scheme) :
    ∀ m a, a + m = config.retries →
      (∀ i, env.net s i config.verify_ssl = .timeoutErr) →
      attemptsLoop env config host s a (m + 1) =
        (timeoutBackoffTrace s config.verify_ssl a m ++
          [Event.probe s (a + m) config.verify_ssl],
         none) := by
  intro m
  induction m with
  | zero =>
    intro a hsum hto
    rw [attemptsLoop_timeout_last env config host s a 0 (hto a) (by omega)]
    simp [attemptsLoop, timeoutBackoffTrace]
  | succ m ih =>
    intro a hsum hto
    rw [attemptsLoop_timeout_step env config host s a (m + 1) (hto a) (by omega)]
    rw [ih (a + 1) (by omega) hto]
    have harith : a + 1 + m = a + (m + 1) := by omega
    simp [timeoutBackoffTrace, harith]

/-- C4: a timed-out attempt with attempts remaining sleeps
`0.5 * (attempt+1)` seconds and retries the *same* scheme, so `k ≤ retries`
timeouts followed by a matching response yield exactly `k + 1` probes of
that scheme interleaved with the backoff sleeps; and when all `retries + 1`
attempts of `http` time out, `check_host` moves on to the `https` scheme. -/
theorem timeout_backoff_retry :
    (∀ (env : Env) (config : ScanConfig) (host : String) (k : Nat)
      (r : HttpResponse),
      config.only_https = false →
      k ≤ config.retries →
      (∀ i, i < k → env.net Scheme.http i config.verify_ssl = .timeoutErr) →
      env.net Scheme.http k config.verify_ssl = .resp r →
      should_include_status config r.status_code = true →
      check_host env config host =
        (Event.rateLimitWait ::
          (timeoutBackoffTrace Scheme.http config.verify_ssl 0 k ++
            [Event.probe Scheme.http k config.verify_ssl]),
         some (buildResult env config host Scheme.http r))) ∧
    (∀ (env : Env) (config : ScanConfig) (host : String),
      config.only_https = false → config.only_http = false →
      (∀ i, env.net Scheme.http i config.verify_ssl = .timeoutErr) →
      check_host env config host =
        (Event.rateLimitWait ::
          ((timeoutBackoffTrace Scheme.http config.verify_ssl 0 config.retries ++
            [Event.probe Scheme.http config.retries config.verify_ssl]) ++
           (attemptsLoop env config host Scheme.https 0 (config.retries + 1)).1),
         (attemptsLoop env config host Scheme.https 0 (config.retries + 1)).2)) := by
  constructor
  · intro env config host k r h1 hk htos hm hi
    have hmain := attemptsLoop_timeouts_then_match env config host Scheme.http r
      k 0 (config.retries + 1) (by omega) (by omega)
      (fun i hik => by simpa using htos i hik) (by simpa using hm) hi
    simp only [Nat.zero_add] at hmain
    unfold check_host schemesFor
    rw [h1]
    cases h2 : config.only_http with
    | false =>
      simp only [Bool.not_false, if_true, List.singleton_append, schemesLoop, hmain]
    | true =>
      simp only [Bool.not_true, if_false, List.append_nil, schemesLoop, hmain]
  · intro env config host h1 h2 hto
    have hmain := attemptsLoop_timeout_all env config host Scheme.http
      config.retries 0 (by omega) hto
    simp only [Nat.zero_add] at hmain
    unfold check_host schemesFor
    rw [h1, h2]
    simp only [Bool.not_false, if_true, List.singleton_append, schemesLoop, hmain]
    cases ht : (attemptsLoop env config host Scheme.https 0 (config.retries + 1)).2 <;>
      simp [ht]

/-- A network where `http` times out on attempts 0 and 1 and every other
request returns status 200. -/
def envTimeoutTwice : Env :=
  { net := fun s a _ =>
      match s, a with
      | Scheme.http, 0 => .timeoutErr
      | Scheme.http, 1 => .timeoutErr
      | _, _ => .resp { status_code := 200 }
    cls := cls0 }

/-- Witness for C4: with `retries = 2`, two timeouts then a 200 on the third
attempt yield a live result after backoff sleeps of 0.5 and 1.0 seconds and
exactly 3 probes of the `http` scheme. -/
theorem timeout_backoff_retry_witness :
    check_host envTimeoutTwice { retries := 2 } "h" =
      (Event.rateLimitWait ::
        (timeoutBackoffTrace Scheme.http true 0 2 ++
          [Event.probe Scheme.http 2 true]),
       some (buildResult envTimeoutTwice { retries := 2 } "h" Scheme.http
         { status_code := 200 })) :=
  timeout_backoff_retry.1 envTimeoutTwice { retries := 2 } "h" 2
    { status_code := 200 } rfl (by decide) (by decide) rfl (by decide)

lemma attemptsLoop_none (env : Env) (config : ScanConfig) (host : String)
    (s : Scheme)
    (h : ∀ i v r, env.net s i v = .resp r →
      should_include_status config r.status_code = false) :
    ∀ rem a, (attemptsLoop env config host s a rem).2 = none := by
  intro rem
  induction rem with
  | zero => intro a; simp [attemptsLoop]
  | succ n ih =>
    intro a
    simp only [attemptsLoop]
    cases hn : env.net s a config.verify_ssl with
    | resp r =>
      have hi := h a config.verify_ssl r hn
      simp [hn, hi]; exact ih (a + 1)
    | sslErr =>
      by_cases hv : config.verify_ssl && s == Scheme.https
      · cases hf : env.net s a false with
        | resp r =>
          have hi := h a false r hf
          simp [hn, hv, hf, hi]; exact ih (a + 1)
        | sslErr => simp [hn, hv, hf]; exact ih (a + 1)
        | timeoutErr => simp [hn, hv, hf]; exact ih (a + 1)
        | connErr => simp [hn, hv, hf]; exact ih (a + 1)
        | reqErr => simp [hn, hv, hf]; exact ih (a + 1)
        | otherErr => simp [hn, hv, hf]; exact ih (a + 1)
      · simp [hn, hv]; exact ih (a + 1)
    | timeoutErr =>
      by_cases hr : a < config.retries
      · simp [hn, hr]; exact ih (a + 1)
      · simp [hn, hr]; exact ih (a + 1)
    | connErr => simp [hn]; exact ih (a + 1)
    | reqErr => simp [hn]; exact ih (a + 1)
    | otherErr => simp [hn]; exact ih (a + 1)

lemma schemesLoop_none (env : Env) (config : ScanConfig) (host : String)
    (h : ∀ s i v r, env.net s i v = .resp r →
      should_include_status config r.status_code = false) :
    ∀ ss : List Scheme, (schemesLoop env config host ss).2 = none := by
  intro ss
  induction ss with
  | nil => simp [schemesLoop]
  | cons s rest ih =>
    simp only [schemesLoop]
    have hs := attemptsLoop_none env config host s (h s) (config.retries + 1) 0
    rw [hs]
    simpa using ih

/-- C8: `check_host` is a total function of the probe outcomes (network
failures are data, never propagated), and whenever no response of any
scheme, attempt or fallback passes the status filter, it returns `none`
("host not live"). -/
theorem check_host_no_match_returns_nil (env : Env) (config : ScanConfig)
    (host : String)
    (h : ∀ s i v r, env.net s i v = .resp r →
      should_include_status config r.status_code = false) :
    (check_host env config host).2 = none := by
  unfold check_host
  simpa using schemesLoop_none env config host h (schemesFor config)

/-- A network where every request returns status 404 (not in the default
match list). -/
def env404 : Env :=
  { net := fun _ _ _ => .resp { status_code := 404 }, cls := cls0 }

/-- Witness for C8: all responses 404 under the default config gives a
`none` result. -/
theorem check_host_no_match_returns_nil_witness :
    (check_host env404 {} "h").2 = none :=
  check_host_no_match_returns_nil env404 {} "h"
    (fun s i v r hresp => by
      injection hresp with h2
      subst h2
      decide)

/-- C5: schemes are tried in the order `http` (unless `only_https`) then
`https` (unless `only_http`); the first attempt whose response passes the
status filter returns its `ScanResult` immediately with no further events;
and when every `http` attempt raises `ConnectionError` while `https`
answers with a passing status, the result is the `https` result, whose
`scheme` field is `"https"`. -/
theorem scheme_order_first_match_wins :
    (∀ (env : Env) (config : ScanConfig) (host : String) (r : HttpResponse),
      config.only_https = false →
      env.net Scheme.http 0 config.verify_ssl = .resp r →
      should_include_status config r.status_code = true →
      check_host env config host =
        ([Event.rateLimitWait, Event.probe Scheme.http 0 config.verify_ssl],
         some (buildResult env config host Scheme.http r))) ∧
    (∀ (env : Env) (config : ScanConfig) (host : String) (r : HttpResponse),
      config.only_https = false → config.only_http = false →
      (∀ i, env.net Scheme.http i config.verify_ssl = .connErr) →
      env.net Scheme.https 0 config.verify_ssl = .resp r →
      should_include_status config r.status_code = true →
      check_host env config host =
        (Event.rateLimitWait ::
          ((List.range' 0 (config.retries + 1)).map
            (fun i => Event.probe Scheme.http i config.verify_ssl) ++
           [Event.probe Scheme.https 0 config.verify_ssl]),
         some (buildResult env config host Scheme.https r)) ∧
      (buildResult env config host Scheme.https r).scheme = "https") := by
  constructor
  · intro env config host r h1 hn hi
    have hmatch := attemptsLoop_first_match env config host Scheme.http 0
      config.retries r hn hi
    unfold check_host schemesFor
    rw [h1]
    cases h2 : config.only_http with
    | false =>
      simp only [Bool.not_false, if_true, List.singleton_append, schemesLoop, hmatch]
    | true =>
      simp only [Bool.not_true, if_false, List.append_nil, schemesLoop, hmatch]
  · intro env config host r h1 h2 hconn hn hi
    refine ⟨?_, rfl⟩
    have hhard := attemptsLoop_hard_all env config host Scheme.http
      (config.retries + 1) 0
      (fun i => by rw [hconn i]; rfl)
    have hmatch := attemptsLoop_first_match env config host Scheme.https 0
      config.retries r hn hi
    unfold check_host schemesFor
    rw [h1, h2]
    simp only [Bool.not_false, if_true, List.singleton_append, schemesLoop,
      hhard, hmatch]

/-- A network where `http` always raises `ConnectionError` and `https`
returns status 200. -/
def envHttpsOnly : Env :=
  { net := fun s _ _ =>
      match s with
      | Scheme.http => .connErr
      | Scheme.https => .resp { status_code := 200 }
    cls := cls0 }

/-- Witness for C5: with the default config, an `http` connection error and
an `https` 200 produce the `https` result. -/
theorem scheme_order_first_match_wins_witness :
    check_host envHttpsOnly {} "h" =
      (Event.rateLimitWait ::
        ((List.range' 0 (({} : ScanConfig).retries + 1)).map
          (fun i => Event.probe Scheme.http i ({} : ScanConfig).verify_ssl) ++
         [Event.probe Scheme.https 0 ({} : ScanConfig).verify_ssl]),
       some (buildResult envHttpsOnly {} "h" Scheme.https
         { status_code := 200 })) ∧
    (buildResult envHttpsOnly {} "h" Scheme.https
      { status_code := 200 }).scheme = "https" :=
  scheme_order_first_match_wins.2 envHttpsOnly {} "h" { status_code := 200 }
    rfl rfl (fun _ => rfl) rfl (by decide)

/-- Whether a `session.get` outcome is an HTTP response (as opposed to a
raised exception). -/
def isRespB : NetResult → Bool
  | .resp _ => true
  | _ => false

/-- C9: when an `https` attempt with TLS verification enabled raises
`SSLError`, exactly one extra request is issued with verification disabled
(the attempt's trace is exactly the verified probe followed by the
unverified one); the fallback's status is still run through the status
filter — a passing status returns the reduced-detail result with scheme
`"https"`, a failing status or a second exception just falls through to
the next attempt. -/
theorem ssl_fallback_single_retry_filtered (env : Env) (config : ScanConfig)
    (host : String) (a rem : Nat)
    (hv : config.verify_ssl = true)
    (hssl : env.net Scheme.https a true = .sslErr) :
    (∀ r, env.net Scheme.https a false = .resp r →
      should_include_status config r.status_code = true →
      attemptsLoop env config host Scheme.https a (rem + 1) =
        ([Event.probe Scheme.https a true, Event.probe Scheme.https a false],
         some (buildFallbackResult env config host r)) ∧
      (buildFallbackResult env config host r).scheme = "https") ∧
    (∀ r, env.net Scheme.https a false = .resp r →
      should_include_status config r.status_code = false →
      attemptsLoop env config host Scheme.https a (rem + 1) =
        (Event.probe Scheme.https a true :: Event.probe Scheme.https a false ::
          (attemptsLoop env config host Scheme.https (a + 1) rem).1,
         (attemptsLoop env config host Scheme.https (a + 1) rem).2)) ∧
    (isRespB (env.net Scheme.https a false) = false →
      attemptsLoop env config host Scheme.https a (rem + 1) =
        (Event.probe Scheme.https a true :: Event.probe Scheme.https a false ::
          (attemptsLoop env config host Scheme.https (a + 1) rem).1,
         (attemptsLoop env config host Scheme.https (a + 1) rem).2)) := by
  refine ⟨?_, ?_, ?_⟩
  · intro r hf hi
    constructor
    · simp only [attemptsLoop, hv, hssl, hf, hi]
      simp
    · rfl
  · intro r hf hi
    simp only [attemptsLoop, hv, hssl, hf, hi]
    simp
  · intro hnr
    cases hf : env.net Scheme.https a false with
    | resp r => rw [hf] at hnr; simp [isRespB] at hnr
    | sslErr => simp only [attemptsLoop, hv, hssl, hf]; simp
    | timeoutErr => simp only [attemptsLoop, hv, hssl, hf]; simp
    | connErr => simp only [attemptsLoop, hv, hssl, hf]; simp
    | reqErr => simp only [attemptsLoop, hv, hssl, hf]; simp
    | otherErr => simp only [attemptsLoop, hv, hssl, hf]; simp

/-- A network where verified `https` requests raise `SSLError`, unverified
ones return 200, and `http` always raises `ConnectionError`. -/
def envSslFallback : Env :=
  { net := fun s _ v =>
      match s, v with
      | Scheme.https, true => .sslErr
      | Scheme.https, false => .resp { status_code := 200 }
      | Scheme.http, _ => .connErr
    cls := cls0 }

/-- Witness for C9 at a concrete scenario: one fallback request, result
returned from it with scheme `"https"`. -/
theorem ssl_fallback_single_retry_filtered_witness :
    attemptsLoop envSslFallback {} "h" Scheme.https 0 (0 + 1) =
      ([Event.probe Scheme.https 0 true, Event.probe Scheme.https 0 false],
       some (buildFallbackResult envSslFallback {} "h" { status_code := 200 })) ∧
    (buildFallbackResult envSslFallback {} "h" { status_code := 200 }).scheme =
      "https" :=
  (ssl_fallback_single_retry_filtered envSslFallback {} "h" 0 0 rfl rfl).1
    { status_code := 200 } rfl (by decide)

lemma lexLt_irrefl : ∀ x, lexLt x x = false := by
  intro x
  induction x with
  | nil => rfl
  | cons a as ih => simp [lexLt, ih]

lemma lexLt_asymm : ∀ x y, lexLt x y = true → lexLt y x = true → False := by
  intro x
  induction x with
  | nil =>
    intro y h1 h2
    cases y with
    | nil => simp [lexLt] at h1
    | cons b bs => simp [lexLt] at h2
  | cons a as ih =>
    intro y h1 h2
    cases y with
    | nil => simp [lexLt] at h1
    | cons b bs =>
      by_cases hab : a.toNat < b.toNat
      · have hba : ¬ b.toNat < a.toNat := by omega
        simp [lexLt, hab, hba] at h2
      · by_cases hba : b.toNat < a.toNat
        · simp [lexLt, hab, hba] at h1
        · simp [lexLt, hab, hba] at h1 h2
          exact ih bs h1 h2

lemma lexLt_trans : ∀ x y z, lexLt x y = true → lexLt y z = true →
    lexLt x z = true := by
  intro x
  induction x with
  | nil =>
    intro y z h1 h2
    cases y with
    | nil => simp [lexLt] at h1
    | cons b bs =>
      cases z with
      | nil => simp [lexLt] at h2
      | cons c cs => simp [lexLt]
  | cons a as ih =>
    intro y z h1 h2
    cases y with
    | nil => simp [lexLt] at h1
    | cons b bs =>
      cases z with
      | nil => simp [lexLt] at h2
      | cons c cs =>
        by_cases hab : a.toNat < b.toNat
        · by_cases hbc : b.toNat < c.toNat
          · have : a.toNat < c.toNat := by omega
            simp [lexLt, this]
          · by_cases hcb : c.toNat < b.toNat
            · simp [lexLt, hbc, hcb] at h2
            · have : a.toNat < c.toNat := by omega
              simp [lexLt, this]
        · by_cases hba : b.toNat < a.toNat
          · simp [lexLt, hab, hba] at h1
          · by_cases hbc : b.toNat < c.toNat
            · have : a.toNat < c.toNat := by omega
              simp [lexLt, this]
            · by_cases hcb : c.toNat < b.toNat
              · simp [lexLt, hbc, hcb] at h2
              · simp [lexLt, hab, hba] at h1
                simp [lexLt, hbc, hcb] at h2
                have hac : ¬ a.toNat < c.toNat := by omega
                have hca : ¬ c.toNat < a.toNat := by omega
                simp [lexLt, hac, hca]
                exact ih bs cs h1 h2

lemma lexLt_connex : ∀ x y, lexLt x y = false → lexLt y x = false → x = y := by
  intro x
  induction x with
  | nil =>
    intro y h1 _
    cases y with
    | nil => rfl
    | cons b bs => simp [lexLt] at h1
  | cons a as ih =>
    intro y h1 h2
    cases y with
    | nil => simp [lexLt] at h2
    | cons b bs =>
      by_cases hab : a.toNat < b.toNat
      · simp [lexLt, hab] at h1
      · by_cases hba : b.toNat < a.toNat
        · simp [lexLt, hba] at h2
        · simp [lexLt, hab, hba] at h1 h2
          have hv : a = b := by
            apply Char.ext
            apply UInt32.ext
            have h3 : a.toNat = b.toNat := by omega
            exact h3
          rw [hv, ih bs h1 h2]

lemma keyLt_iff (a b : ScanResult) : keyLt a b = true ↔
    (a.status < b.status ∨
      (a.status = b.status ∧ lexLt a.url.data b.url.data = true)) := by
  simp [keyLt]

lemma keyLt_eq_false (a b : ScanResult) : keyLt a b = false ↔
    ¬ (a.status < b.status ∨
      (a.status = b.status ∧ lexLt a.url.data b.url.data = true)) := by
  rw [← keyLt_iff]
  cases keyLt a b <;> simp

lemma keyLt_asymm (a b : ScanResult) (h1 : keyLt a b = true)
    (h2 : keyLt b a = true) : False := by
  rw [keyLt_iff] at h1 h2
  rcases h1 with h1 | ⟨hs1, hu1⟩ <;> rcases h2 with h2 | ⟨hs2, hu2⟩
  · omega
  · omega
  · omega
  · exact lexLt_asymm _ _ hu1 hu2

lemma keyLt_trans (a b c : ScanResult) (h1 : keyLt a b = true)
    (h2 : keyLt b c = true) : keyLt a c = true := by
  rw [keyLt_iff] at h1 h2 ⊢
  rcases h1 with h1 | ⟨hs1, hu1⟩ <;> rcases h2 with h2 | ⟨hs2, hu2⟩
  · exact Or.inl (by omega)
  · exact Or.inl (by omega)
  · exact Or.inl (by omega)
  · exact Or.inr ⟨by omega, lexLt_trans _ _ _ hu1 hu2⟩

lemma keyLt_connex (a b : ScanResult) (h1 : keyLt a b = false)
    (h2 : keyLt b a = false) : a.status = b.status ∧ a.url = b.url := by
  rw [keyLt_eq_false] at h1 h2
  push_neg at h1 h2
  obtain ⟨hs1, hu1⟩ := h1
  obtain ⟨hs2, hu2⟩ := h2
  have hs : a.status = b.status := by omega
  refine ⟨hs, ?_⟩
  apply String.ext
  apply lexLt_connex
  · have := hu1 hs
    simpa using this
  · have := hu2 hs.symm
    simpa using this

lemma keyLe_refl (a : ScanResult) : keyLe a a = true := by
  have h : keyLt a a = false := by
    rw [keyLt_eq_false]
    rintro (h | ⟨_, hu⟩)
    · omega
    · rw [lexLt_irrefl] at hu
      exact Bool.false_ne_true hu
  simp [keyLe, h]

lemma keyLe_total (a b : ScanResult) : keyLe a b = true ∨ keyLe b a = true := by
  cases h1 : keyLt b a with
  | false => left; simp [keyLe, h1]
  | true =>
    right
    cases h2 : keyLt a b with
    | false => simp [keyLe, h2]
    | true => exact absurd (keyLt_asymm a b h2 h1) not_false

lemma keyLe_antisymm_keys (a b : ScanResult) (h1 : keyLe a b = true)
    (h2 : keyLe b a = true) : a.status = b.status ∧ a.url = b.url := by
  have hba : keyLt b a = false := by
    cases h : keyLt b a
    · rfl
    · simp [keyLe, h] at h1
  have hab : keyLt a b = false := by
    cases h : keyLt a b
    · rfl
    · simp [keyLe, h] at h2
  exact keyLt_connex a b hab hba

lemma keyLt_key_congr (a b c : ScanResult) (hs : b.status = c.status)
    (hu : b.url = c.url) : keyLt c a = keyLt b a := by
  simp [keyLt, hs, hu]

lemma keyLe_trans (a b c : ScanResult) (h1 : keyLe a b = true)
    (h2 : keyLe b c = true) : keyLe a c = true := by
  have hba : keyLt b a = false := by
    cases h : keyLt b a
    · rfl
    · simp [keyLe, h] at h1
  have hcb : keyLt c b = false := by
    cases h : keyLt c b
    · rfl
    · simp [keyLe, h] at h2
  cases hca : keyLt c a with
  | false => simp [keyLe, hca]
  | true =>
    exfalso
    cases hbc : keyLt b c with
    | false =>
      have hk := keyLt_connex b c hbc hcb
      have hba2 : keyLt b a = true := by
        rw [← keyLt_key_congr a b c hk.1 hk.2]
        exact hca
      rw [hba] at hba2
      exact Bool.false_ne_true hba2
    | true =>
      have := keyLt_trans b c a hbc hca
      rw [hba] at this
      exact Bool.false_ne_true this

lemma mem_insertSorted (a x : ScanResult) :
    ∀ l, x ∈ insertSorted a l ↔ x = a ∨ x ∈ l := by
  intro l
  induction l with
  | nil => simp [insertSorted]
  | cons b bs ih =>
    simp only [insertSorted]
    by_cases h : keyLe a b = true
    · rw [if_pos h]
      simp [or_comm, or_assoc, or_left_comm]
    · rw [if_neg h]
      simp [ih, or_comm, or_assoc, or_left_comm]

lemma insertSorted_pairwise (a : ScanResult) :
    ∀ l, List.Pairwise (fun x y => keyLe x y = true) l →
      List.Pairwise (fun x y => keyLe x y = true) (insertSorted a l) := by
  intro l
  induction l with
  | nil => intro _; simp [insertSorted]
  | cons b bs ih =>
    intro hp
    simp only [insertSorted]
    by_cases h : keyLe a b = true
    · rw [if_pos h]
      constructor
      · intro y hy
        rcases List.mem_cons.mp hy with rfl | hy'
        · exact h
        · exact keyLe_trans a b y h (List.rel_of_pairwise_cons hp hy')
      · exact hp
    · rw [if_neg h]
      have hba : keyLe b a = true := by
        rcases keyLe_total a b with h1 | h1
        · exact absurd h1 h
        · exact h1
      constructor
      · intro y hy
        rcases (mem_insertSorted a y bs).mp hy with rfl | hy'
        · exact hba
        · exact List.rel_of_pairwise_cons hp hy'
      · exact ih hp.of_cons

lemma insertSorted_perm (a : ScanResult) :
    ∀ l, (insertSorted a l).Perm (a :: l) := by
  intro l
  induction l with
  | nil => simp [insertSorted]
  | cons b bs ih =>
    simp only [insertSorted]
    by_cases h : keyLe a b = true
    · rw [if_pos h]
    · rw [if_neg h]
      exact (ih.cons b).trans (List.Perm.swap a b bs)

lemma sortResults_pairwise :
    ∀ l, List.Pairwise (fun x y => keyLe x y = true) (sortResults l) := by
  intro l
  induction l with
  | nil => simp [sortResults]
  | cons a as ih => exact insertSorted_pairwise a _ ih

lemma sortResults_perm : ∀ l, (sortResults l).Perm l := by
  intro l
  induction l with
  | nil => simp [sortResults]
  | cons a as ih =>
    simp only [sortResults]
    exact (insertSorted_perm a (sortResults as)).trans (ih.cons a)

/-- No two distinct results of the list share the sort key
`(status, url)`. -/
def keyInjOn (l : List ScanResult) : Prop :=
  ∀ a ∈ l, ∀ b ∈ l, a.status = b.status → a.url = b.url → a = b

instance (l : List ScanResult) : Decidable (keyInjOn l) := by
  unfold keyInjOn
  infer_instance

lemma sorted_perm_unique :
    ∀ l1 l2 : List ScanResult, l1.Perm l2 →
      List.Pairwise (fun x y => keyLe x y = true) l1 →
      List.Pairwise (fun x y => keyLe x y = true) l2 →
      keyInjOn l1 → l1 = l2 := by
  intro l1
  induction l1 with
  | nil =>
    intro l2 hp _ _ _
    exact (hp.symm.eq_nil).symm
  | cons a t1 ih =>
    intro l2 hp hs1 hs2 hinj
    cases l2 with
    | nil => exact absurd hp.eq_nil (by simp)
    | cons b t2 =>
      have hab : a = b := by
        have hamem : a ∈ b :: t2 := hp.mem_iff.mp (List.mem_cons_self a t1)
        have hbmem : b ∈ a :: t1 := hp.mem_iff.mpr (List.mem_cons_self b t2)
        have hab' : keyLe a b = true := by
          rcases List.mem_cons.mp hbmem with hb | hb
          · rw [hb]; exact keyLe_refl a
          · exact List.rel_of_pairwise_cons hs1 hb
        have hba' : keyLe b a = true := by
          rcases List.mem_cons.mp hamem with ha | ha
          · rw [ha]; exact keyLe_refl b
          · exact List.rel_of_pairwise_cons hs2 ha
        have hk := keyLe_antisymm_keys a b hab' hba'
        exact hinj a (List.mem_cons_self a t1) b hbmem hk.1 hk.2
      subst hab
      have ht : t1.Perm t2 := hp.cons_inv
      have hrec := ih t2 ht hs1.of_cons hs2.of_cons
        (fun x hx y hy => hinj x (List.mem_cons_of_mem a hx) y
          (List.mem_cons_of_mem a hy))
      rw [hrec]

lemma foldl_record_results :
    ∀ (completed : List (Option ScanResult)) (st : AggState),
      (completed.foldl record st).results = st.results ++ completed.reduceOption := by
  intro completed
  induction completed with
  | nil => intro st; simp [List.reduceOption]
  | cons o rest ih =>
    intro st
    cases o with
    | none =>
      rw [List.foldl_cons, ih]
      simp [record, List.reduceOption]
    | some r =>
      rw [List.foldl_cons, ih]
      simp [record, List.reduceOption]

lemma run_checks_results (n : Nat) (completed : List (Option ScanResult)) :
    (run_checks n completed).1 = sortResults completed.reduceOption := by
  unfold run_checks
  simp [foldl_record_results]

/-- C7 (amended): the result list returned by `run_checks` is sorted
ascending by the key `(status, url)` and is a permutation of the recorded
(non-nil) results; and whenever no two distinct recorded results share the
same `(status, url)` key, the output is fully independent of completion
order. (Without that proviso the order of equal-key results follows the
stable sort's input order — see the counterexample.) -/
theorem run_checks_sorted_by_status_url (n n' : Nat)
    (completed completed' : List (Option ScanResult)) :
    List.Pairwise (fun x y => keyLe x y = true) (run_checks n completed).1 ∧
    (run_checks n completed).1.Perm completed.reduceOption ∧
    (completed.reduceOption.Perm completed'.reduceOption →
      keyInjOn completed.reduceOption →
      (run_checks n completed).1 = (run_checks n' completed').1) := by
  refine ⟨?_, ?_, ?_⟩
  · rw [run_checks_results]
    exact sortResults_pairwise _
  · rw [run_checks_results]
    exact sortResults_perm _
  · intro hperm hinj
    rw [run_checks_results, run_checks_results]
    apply sorted_perm_unique
    · exact (sortResults_perm _).trans (hperm.trans (sortResults_perm _).symm)
    · exact sortResults_pairwise _
    · exact sortResults_pairwise _
    · intro x hx y hy
      have hx' := (sortResults_perm completed.reduceOption).mem_iff.mp hx
      have hy' := (sortResults_perm completed.reduceOption).mem_iff.mp hy
      exact hinj x hx' y hy'

/-- Two distinct results sharing the sort key `(200, "u")`. -/
def resU1 : ScanResult := { url := "u", host := "a", status := 200, scheme := "http" }

/-- See `resU1`: same key, different `host`. -/
def resU2 : ScanResult := { url := "u", host := "b", status := 200, scheme := "http" }

/-- Counterexample to C7 as stated: the two completion orders of the same
multiset of recorded results produce different final lists, because the
stable sort keeps equal-key results in completion order. -/
theorem run_checks_order_dependent_counterexample :
    [some resU1, some resU2].Perm [some resU2, some resU1] ∧
    (run_checks 2 [some resU1, some resU2]).1 = [resU1, resU2] ∧
    (run_checks 2 [some resU2, some resU1]).1 = [resU2, resU1] ∧
    resU1 ≠ resU2 := by
  refine ⟨by decide, ?_, ?_, by decide⟩
  · rfl
  · rfl

/-- Results A(404), C(200, "a.com"), D(200, "z.com") from spec §8's sort-law
test (distinct keys). -/
def resA : ScanResult := { url := "http://x", host := "x", status := 404, scheme := "http" }

/-- See `resA`. -/
def resC : ScanResult := { url := "a.com", host := "c", status := 200, scheme := "http" }

/-- See `resA`. -/
def resD : ScanResult := { url := "z.com", host := "d", status := 200, scheme := "http" }

/-- Witness for C7's amended theorem: two completion orders of the spec's
distinct-key example sort to the same list. -/
theorem run_checks_sorted_by_status_url_witness :
    (run_checks 3 [some resA, some resD, some resC]).1 =
      (run_checks 3 [some resC, some resA, some resD]).1 :=
  (run_checks_sorted_by_status_url 3 3 [some resA, some resD, some resC]
    [some resC, some resA, some resD]).2.2 (by decide) (by decide)

lemma distTotal_distIncr {α : Type} [BEq α] (k : α) :
    ∀ d : List (α × Nat), distTotal (distIncr d k) = distTotal d + 1 := by
  intro d
  induction d with
  | nil => simp [distIncr, distTotal]
  | cons p rest ih =>
    obtain ⟨k', v⟩ := p
    simp only [distIncr]
    by_cases h : (k' == k) = true
    · rw [if_pos h]
      simp [distTotal]
      omega
    · rw [if_neg h]
      simp [distTotal] at ih ⊢
      omega

/-- The aggregation invariant maintained by `record`: `total_found` counts
the recorded results, and the status distribution's counts sum to
`total_found`. -/
def statsInv (st : AggState) : Prop :=
  st.stats.total_found = st.results.length ∧
  distTotal st.stats.status_distribution = st.stats.total_found

lemma record_preserves_inv (st : AggState) (o : Option ScanResult)
    (h : statsInv st) : statsInv (record st o) := by
  cases o with
  | none => exact h
  | some r =>
    obtain ⟨h1, h2⟩ := h
    constructor
    · simp [record, h1]
    · simp [record, distTotal_distIncr, h2]

lemma foldl_record_inv :
    ∀ (completed : List (Option ScanResult)) (st : AggState),
      statsInv st → statsInv (completed.foldl record st) := by
  intro completed
  induction completed with
  | nil => intro st h; exact h
  | cons o rest ih =>
    intro st h
    exact ih (record st o) (record_preserves_inv st o h)

/-- C10: after `run_checks`, `total_found` equals the length of the returned
result list, and the counts in `status_distribution` sum to `total_found` —
every non-nil result appends to the list, bumps `total_found`, and bumps
exactly one status entry in the same update. -/
theorem run_checks_stats_consistent (n : Nat)
    (completed : List (Option ScanResult)) :
    (run_checks n completed).2.total_found = (run_checks n completed).1.length ∧
    distTotal (run_checks n completed).2.status_distribution =
      (run_checks n completed).2.total_found := by
  have hinv : statsInv (completed.foldl record
      { results := [], stats := { total_checked := n } }) :=
    foldl_record_inv completed _ ⟨rfl, rfl⟩
  obtain ⟨h1, h2⟩ := hinv
  unfold run_checks
  refine ⟨?_, h2⟩
  rw [(sortResults_perm _).length_eq]
  exact h1
